import Mathlib

/-!
Shallow embedding of `src/demo.py` (kevinmcaleer/Rover): a fixed-rate
closed-loop velocity controller for a four-wheeled drivetrain.  Per-tick
numeric values (setpoints, PID state, motor commands) are modelled over ℚ;
the per-tick encoder measurements (each wheel's `revolutions_per_second`)
are an input stream `rps : ℕ → Fin 4 → ℚ`.
-/

namespace Rover

/-- Constant `UPDATES` from demo.py line 24: control-loop ticks per second. -/
def UPDATES : ℕ := 100

/-- Constant `UPDATE_RATE` from demo.py line 25: the tick period `1 / UPDATES`. -/
def UPDATE_RATE : ℚ := 1 / (UPDATES : ℚ)

/-- Constant `TIME_FOR_EACH_MOVE` from demo.py line 26 (seconds per sequence state). -/
def TIME_FOR_EACH_MOVE : ℕ := 2

/-- Constant `UPDATES_PER_MOVE` from demo.py line 27: ticks per sequence state. -/
def UPDATES_PER_MOVE : ℕ := TIME_FOR_EACH_MOVE * UPDATES

/-- Velocity proportional gain `VEL_KP` (demo.py line 31). -/
def VEL_KP : ℚ := 30

/-- Velocity integral gain `VEL_KI` (demo.py line 32). -/
def VEL_KI : ℚ := 0

/-- Velocity derivative gain `VEL_KD` (demo.py line 33), 0.4 = 2/5. -/
def VEL_KD : ℚ := 2 / 5

/-- Wheel friendly name `FL = 2` (demo.py line 53). -/
def FL : Fin 4 := 2

/-- Wheel friendly name `FR = 3` (demo.py line 54). -/
def FR : Fin 4 := 3

/-- Wheel friendly name `RL = 1` (demo.py line 55). -/
def RL : Fin 4 := 1

/-- Wheel friendly name `RR = 0` (demo.py line 56). -/
def RR : Fin 4 := 0

/-- Modelled from the spec: the `pimoroni` `PID` class imported by demo.py is
not part of this repository's sources; its state is taken from spec §4.2 and
§3 (PIDState): gains, setpoint, integral accumulator, previous error and the
fixed sample period. -/
structure PID where
  kp : ℚ
  ki : ℚ
  kd : ℚ
  setpoint : ℚ
  errorSum : ℚ
  lastError : ℚ
  sampleRate : ℚ
deriving Repr

/-- Modelled from the spec: `PID.calculate` per spec §4.2 — `error = setpoint −
measured_value`; the integral accumulates `error × sample_period`; the
derivative is `(error − previous_error) / sample_period`; the output is
`Kp·error + Ki·integral + Kd·derivative`; `previous_error` is updated after
each call.  Returns the correction together with the updated controller. -/
def PID.calculate (p : PID) (value : ℚ) : ℚ × PID :=
  let error := p.setpoint - value
  let errorSum := p.errorSum + error * p.sampleRate
  let deriv := (error - p.lastError) / p.sampleRate
  (p.kp * error + p.ki * errorSum + p.kd * deriv,
   { p with errorSum := errorSum, lastError := error })

/-- Modelled from the spec: the `Motor` actuator (spec §4.3) holds the last
commanded normalized speed indefinitely and has enable/disable gating; the
`motor` library class is not part of this repository's sources. -/
structure Motor where
  speed : ℚ
  enabled : Bool
deriving Repr

/-- Complete mutable state of the demo.py control loop: the `update` progress
counter (line 76), the `sequence` index (line 109), the four PID controllers
`vel_pids` (line 69), the four motors (lines 40-43) and, for each encoder, how
many times `capture()` has been called on it (lines 47-50, 117-118). -/
structure RoverState where
  update : ℕ
  sequence : ℕ
  vel_pids : Fin 4 → PID
  motors : Fin 4 → Motor
  captureCount : Fin 4 → ℕ

/-- Helper `drive_forward` from demo.py lines 81-85: sets the same setpoint on
all four wheels' PID controllers. -/
def drive_forward (speed : ℚ) (vel_pids : Fin 4 → PID) : Fin 4 → PID :=
  fun i =>
    if i = FL then { vel_pids i with setpoint := speed }
    else if i = FR then { vel_pids i with setpoint := speed }
    else if i = RL then { vel_pids i with setpoint := speed }
    else { vel_pids i with setpoint := speed }

/-- Helper `turn_right` from demo.py lines 88-92: FL and RL get `+speed`,
FR and RR get `-speed`. -/
def turn_right (speed : ℚ) (vel_pids : Fin 4 → PID) : Fin 4 → PID :=
  fun i =>
    if i = FL then { vel_pids i with setpoint := speed }
    else if i = FR then { vel_pids i with setpoint := -speed }
    else if i = RL then { vel_pids i with setpoint := speed }
    else { vel_pids i with setpoint := -speed }

/-- Helper `strafe_right` from demo.py lines 95-99: FL and RR get `+speed`,
FR and RL get `-speed`. -/
def strafe_right (speed : ℚ) (vel_pids : Fin 4 → PID) : Fin 4 → PID :=
  fun i =>
    if i = FL then { vel_pids i with setpoint := speed }
    else if i = FR then { vel_pids i with setpoint := -speed }
    else if i = RL then { vel_pids i with setpoint := -speed }
    else { vel_pids i with setpoint := speed }

/-- Helper `stop` from demo.py lines 102-106: zero setpoint on all four wheels. -/
def stop (vel_pids : Fin 4 → PID) : Fin 4 → PID :=
  fun i =>
    if i = FL then { vel_pids i with setpoint := 0 }
    else if i = FR then { vel_pids i with setpoint := 0 }
    else if i = RL then { vel_pids i with setpoint := 0 }
    else { vel_pids i with setpoint := 0 }

/-- Setpoint dispatch from demo.py lines 153-166: the if/elif chain selecting
the per-wheel setpoints from the current `sequence` index.  Note sequence 3
("TurnLeft") calls `turn_right(-0.0)`, i.e. a zero magnitude. -/
def dispatch (sequence : ℕ) (vel_pids : Fin 4 → PID) : Fin 4 → PID :=
  if sequence = 0 then drive_forward (9/10) vel_pids
  else if sequence = 1 then drive_forward (-(9/10)) vel_pids
  else if sequence = 2 then turn_right (9/10) vel_pids
  else if sequence = 3 then turn_right (-(0 : ℚ)) vel_pids
  else if sequence = 4 then strafe_right (9/10) vel_pids
  else if sequence = 5 then strafe_right (-(9/10)) vel_pids
  else if sequence = 6 then stop vel_pids
  else vel_pids

/-- Counter advance from demo.py lines 139-150: `update += 1`; when it reaches
`UPDATES_PER_MOVE` it resets to 0 and `sequence` advances, wrapping at 7.
Returns the new `(update, sequence)` pair. -/
def nextCounters (update sequence : ℕ) : ℕ × ℕ :=
  if update + 1 ≥ UPDATES_PER_MOVE then
    (0, if sequence + 1 ≥ 7 then 0 else sequence + 1)
  else (update + 1, sequence)

/-- One iteration of the while-loop body (demo.py lines 114-168), in source
order: capture all four encoders (117-118); for each wheel compute the PID
correction from this tick's capture and set the motor speed to the held speed
plus `correction × UPDATE_RATE` (123-128); advance the counters (139-150);
dispatch setpoints from the (possibly advanced) sequence index (153-166).
`rps i` is wheel `i`'s captured `revolutions_per_second` for this tick. -/
def tick (rps : Fin 4 → ℚ) (s : RoverState) : RoverState :=
  let pids1 : Fin 4 → PID := fun i => ((s.vel_pids i).calculate (rps i)).2
  let motors1 : Fin 4 → Motor := fun i =>
    { speed := (s.motors i).speed + ((s.vel_pids i).calculate (rps i)).1 * UPDATE_RATE,
      enabled := (s.motors i).enabled }
  let c := nextCounters s.update s.sequence
  { update := c.1,
    sequence := c.2,
    vel_pids := dispatch c.2 pids1,
    motors := motors1,
    captureCount := fun i => s.captureCount i + 1 }

/-- Modelled from the spec: freshly constructed `PID(VEL_KP, VEL_KI, VEL_KD,
UPDATE_RATE)` (demo.py line 69); the construction-time setpoint, integral
accumulator and previous error are zero (spec §4.2/§8 fresh-start scenario). -/
def initPID : PID :=
  { kp := VEL_KP, ki := VEL_KI, kd := VEL_KD,
    setpoint := 0, errorSum := 0, lastError := 0, sampleRate := UPDATE_RATE }

/-- State at the top of the first loop iteration: `update = 0` (line 76),
`sequence = 0` (line 109), fresh PID controllers (line 69), motors enabled
(lines 72-73) holding a zero command, no captures taken yet. -/
def initState : RoverState :=
  { update := 0,
    sequence := 0,
    vel_pids := fun _ => initPID,
    motors := fun _ => { speed := 0, enabled := true },
    captureCount := fun _ => 0 }

/-- State after `n` complete loop iterations (equivalently: at the top of
iteration `n`), fed by the encoder measurement stream `rps`. -/
def stateAfter (rps : ℕ → Fin 4 → ℚ) : ℕ → RoverState
  | 0 => initState
  | n + 1 => tick (rps n) (stateAfter rps n)

/-- The all-zero measurement stream: every wheel reads 0 rev/s on every tick
(a stalled drivetrain). -/
def rpsZero : ℕ → Fin 4 → ℚ := fun _ _ => 0

/-- Run of the loop on the all-zero measurement stream. -/
def runZero (n : ℕ) : RoverState := stateAfter rpsZero n

/-- Motor disabling on exit (demo.py lines 170-172): every motor is disabled;
nothing else in the state is touched. -/
def disableAll (s : RoverState) : RoverState :=
  { s with motors := fun i => { s.motors i with enabled := false } }

/-- The whole program loop (demo.py lines 114-172) with an explicit halt input
stream (`user_sw.raw()` polled at the top of each iteration) and a fuel bound:
at tick `t`, if the halt input reads true the loop exits and all motors are
disabled; otherwise the body runs and the loop continues at `t + 1`. -/
def runLoop (halt : ℕ → Bool) (rps : ℕ → Fin 4 → ℚ) :
    ℕ → ℕ → RoverState → RoverState
  | 0, _, s => s
  | fuel + 1, t, s =>
    if halt t then disableAll s
    else runLoop halt rps fuel (t + 1) (tick (rps t) s)

/-- Spec-side setpoint table (spec §6), keyed by sequence index and wheel:
used to compare the dispatched setpoints against the specified pattern. -/
def setpointTable (sequence : ℕ) (i : Fin 4) : ℚ :=
  if sequence = 0 then 9/10
  else if sequence = 1 then -(9/10)
  else if sequence = 2 then (if i = FL ∨ i = RL then 9/10 else -(9/10))
  else if sequence = 3 then 0
  else if sequence = 4 then (if i = FL ∨ i = RR then 9/10 else -(9/10))
  else if sequence = 5 then (if i = FL ∨ i = RR then -(9/10) else 9/10)
  else 0

/-! ### Helper lemmas shared by the claim theorems -/

/-- Advancing the counters from the canonical form `(n % 200, n / 200 % 7)`
yields the canonical form at `n + 1`. -/
theorem nextCounters_formula (n : ℕ) :
    nextCounters (n % 200) (n / 200 % 7) = ((n + 1) % 200, (n + 1) / 200 % 7) := by
  unfold nextCounters
  have h200 : UPDATES_PER_MOVE = 200 := rfl
  rw [h200]
  split
  · split
    · refine Prod.ext ?_ ?_ <;> simp <;> omega
    · refine Prod.ext ?_ ?_ <;> simp <;> omega
  · refine Prod.ext ?_ ?_ <;> simp <;> omega

/-- Closed form of the two loop counters: after `n` ticks, `update = n % 200`
and `sequence = n / 200 % 7`, for any measurement stream. -/
theorem counters_formula (rps : ℕ → Fin 4 → ℚ) (n : ℕ) :
    (stateAfter rps n).update = n % 200 ∧ (stateAfter rps n).sequence = n / 200 % 7 := by
  induction n with
  | zero => exact ⟨rfl, rfl⟩
  | succ n ih =>
    have h : (stateAfter rps (n + 1)).update
          = (nextCounters (stateAfter rps n).update (stateAfter rps n).sequence).1 ∧
        (stateAfter rps (n + 1)).sequence
          = (nextCounters (stateAfter rps n).update (stateAfter rps n).sequence).2 := ⟨rfl, rfl⟩
    rw [h.1, h.2, ih.1, ih.2, nextCounters_formula]
    exact ⟨rfl, rfl⟩

/-- Evaluation of `drive_forward`: every wheel gets the same setpoint. -/
theorem drive_forward_setpoint (v : ℚ) (p : Fin 4 → PID) (i : Fin 4) :
    (drive_forward v p i).setpoint = v := by
  fin_cases i <;> simp [drive_forward, FL, FR, RL, RR]

/-- Evaluation of `turn_right`: FL and RL get `v`, FR and RR get `-v`. -/
theorem turn_right_setpoint (v : ℚ) (p : Fin 4 → PID) (i : Fin 4) :
    (turn_right v p i).setpoint = if i = FL ∨ i = RL then v else -v := by
  fin_cases i <;> simp [turn_right, FL, FR, RL, RR]

/-- Evaluation of `strafe_right`: FL and RR get `v`, FR and RL get `-v`. -/
theorem strafe_right_setpoint (v : ℚ) (p : Fin 4 → PID) (i : Fin 4) :
    (strafe_right v p i).setpoint = if i = FL ∨ i = RR then v else -v := by
  fin_cases i <;> simp [strafe_right, FL, FR, RL, RR]

/-- Evaluation of `stop`: every wheel gets setpoint 0. -/
theorem stop_setpoint (p : Fin 4 → PID) (i : Fin 4) :
    (stop p i).setpoint = 0 := by
  fin_cases i <;> simp [stop, FL, FR, RL, RR]

/-- For every in-range sequence index, the dispatch writes exactly the
spec §6 setpoint table. -/
theorem dispatch_setpoint (sequence : ℕ) (h : sequence < 7) (p : Fin 4 → PID) (i : Fin 4) :
    (dispatch sequence p i).setpoint = setpointTable sequence i := by
  interval_cases sequence <;>
    simp [dispatch, setpointTable, drive_forward_setpoint, turn_right_setpoint,
      strafe_right_setpoint, stop_setpoint]

/-- Setpoint dispatch only writes setpoints: `drive_forward` preserves
`lastError`. -/
theorem drive_forward_lastError (v : ℚ) (p : Fin 4 → PID) (i : Fin 4) :
    (drive_forward v p i).lastError = (p i).lastError := by
  unfold drive_forward; split_ifs <;> rfl

/-- Setpoint dispatch only writes setpoints: `turn_right` preserves
`lastError`. -/
theorem turn_right_lastError (v : ℚ) (p : Fin 4 → PID) (i : Fin 4) :
    (turn_right v p i).lastError = (p i).lastError := by
  unfold turn_right; split_ifs <;> rfl

/-- Setpoint dispatch only writes setpoints: `strafe_right` preserves
`lastError`. -/
theorem strafe_right_lastError (v : ℚ) (p : Fin 4 → PID) (i : Fin 4) :
    (strafe_right v p i).lastError = (p i).lastError := by
  unfold strafe_right; split_ifs <;> rfl

/-- Setpoint dispatch only writes setpoints: `stop` preserves `lastError`. -/
theorem stop_lastError (p : Fin 4 → PID) (i : Fin 4) :
    (stop p i).lastError = (p i).lastError := by
  unfold stop; split_ifs <;> rfl

/-- The dispatch never touches a controller's `lastError`. -/
theorem dispatch_lastError (sequence : ℕ) (p : Fin 4 → PID) (i : Fin 4) :
    (dispatch sequence p i).lastError = (p i).lastError := by
  unfold dispatch
  split_ifs <;>
    simp [drive_forward_lastError, turn_right_lastError, strafe_right_lastError, stop_lastError]

/-- After any completed tick the controllers' setpoints match the spec §6
table at the current sequence index (the dispatch runs at the end of every
iteration, after the counter advance). -/
theorem setpoint_after (rps : ℕ → Fin 4 → ℚ) (n : ℕ) (i : Fin 4) :
    ((stateAfter rps (n + 1)).vel_pids i).setpoint
      = setpointTable ((stateAfter rps (n + 1)).sequence) i := by
  have hseq : (stateAfter rps (n + 1)).sequence = (n + 1) / 200 % 7 :=
    (counters_formula rps (n + 1)).2
  have hlt : (stateAfter rps (n + 1)).sequence < 7 := by
    rw [hseq]; exact Nat.mod_lt _ (by norm_num)
  have hpids : (stateAfter rps (n + 1)).vel_pids
      = dispatch ((stateAfter rps (n + 1)).sequence)
          (fun j => (((stateAfter rps n).vel_pids j).calculate (rps n j)).2) := rfl
  rw [hpids, dispatch_setpoint _ hlt]

/-! ### Claim theorems -/

/-- Claim C1, counterexample: the claim that on a transition tick the PID
calculations already use the newly entered state's setpoint is false on the
code.  On the stalled run, tick 200 is a transition tick (the sequence index
changes from 0 to 1 during it), yet the setpoints its PID calls consumed —
the setpoints held at the top of that iteration — are still the Forward
value `+0.9`, not the Reverse value `setpointTable 1 = −0.9`. -/
theorem transition_tick_pid_uses_old_setpoint :
    (runZero 199).sequence = 0 ∧ (runZero 200).sequence = 1 ∧
    ((runZero 199).vel_pids FL).setpoint = 9/10 ∧
    ((runZero 199).vel_pids FL).setpoint ≠ setpointTable ((runZero 200).sequence) FL := by
  have h199 : (runZero 199).sequence = 0 := by
    have h := (counters_formula rpsZero 199).2
    simp only [runZero]; rw [h]
  have h200 : (runZero 200).sequence = 1 := by
    have h := (counters_formula rpsZero 200).2
    simp only [runZero]; rw [h]
  have hsp : ((runZero 199).vel_pids FL).setpoint = 9/10 := by
    have h := setpoint_after rpsZero 198 FL
    norm_num at h
    simp only [runZero]
    rw [h, (counters_formula rpsZero 199).2]
    simp [setpointTable]
  refine ⟨h199, h200, hsp, ?_⟩
  rw [hsp, h200]
  simp [setpointTable]
  norm_num

/-- Claim C1, amended: on every tick, the four PID calculate calls and motor
speed commands run BEFORE the sequencer's progress advance and setpoint
dispatch.  The motor command of tick `n` is computed from the PID state held
at the top of tick `n` (so a transition tick still uses the outgoing state's
setpoint), and at the end of every tick — after the counter advance — the
setpoints equal the table entry of the (possibly newly entered) state, taking
effect from the next tick's PID calls onward. -/
theorem pid_runs_before_sequencer_dispatch (rps : ℕ → Fin 4 → ℚ) (n : ℕ) (i : Fin 4) :
    ((stateAfter rps (n + 1)).motors i).speed
      = ((stateAfter rps n).motors i).speed
        + (((stateAfter rps n).vel_pids i).calculate (rps n i)).1 * UPDATE_RATE ∧
    ((stateAfter rps (n + 1)).vel_pids i).setpoint
      = setpointTable ((stateAfter rps (n + 1)).sequence) i :=
  ⟨rfl, setpoint_after rps n i⟩

attribute [local semireducible] Rat.mul Rat.add Rat.sub Rat.inv in
/-- Claim C2, counterexample: the motor speed command submitted on a tick is
NOT always within the actuator range [-1.0, 1.0].  On the stalled run (every
encoder reads 0 rev/s), the front-left command submitted on the fourth tick
is 117/100, outside the range — the loop applies no clamping. -/
theorem command_out_of_range_at_tick_4 :
    ¬ (-1 ≤ ((runZero 4).motors FL).speed ∧ ((runZero 4).motors FL).speed ≤ 1) := by
  decide

attribute [local semireducible] Rat.mul Rat.add Rat.sub Rat.inv in
/-- Claim C2, amended: the control loop performs no clamping before
submission; the accumulated command is submitted verbatim and can leave the
actuator's valid range [-1.0, 1.0] — on the stalled run it exceeds 1 within
four ticks. -/
theorem command_not_clamped_can_exceed_range :
    ∃ n, 1 < ((runZero n).motors FL).speed := ⟨4, by decide⟩

/-- Claim C3: on every tick and for every wheel, the new motor command equals
the previously held command plus that tick's PID correction multiplied by the
tick period (`UPDATE_RATE`); the command is never recomputed from scratch and
persists between ticks. -/
theorem speed_euler_integration (rps : ℕ → Fin 4 → ℚ) (n : ℕ) (i : Fin 4) :
    ((stateAfter rps (n + 1)).motors i).speed
      = ((stateAfter rps n).motors i).speed
        + (((stateAfter rps n).vel_pids i).calculate (rps n i)).1 * UPDATE_RATE := rfl

/-- Claim C4: the sequencer traverses its 7 states cyclically, each held for
`UPDATES_PER_MOVE = 200` ticks: after `n` ticks the state index is
`n / 200 % 7`, so after the sum of all seven dwell durations (7 × 200 = 1400
ticks) it is 0 again, and a tick taken at the end of state index 6's dwell
wraps the index back to 0. -/
theorem sequencer_seven_state_cycle (rps : ℕ → Fin 4 → ℚ) :
    UPDATES_PER_MOVE = 200 ∧
    (∀ n, (stateAfter rps n).sequence = n / UPDATES_PER_MOVE % 7) ∧
    (stateAfter rps (7 * UPDATES_PER_MOVE)).sequence = 0 ∧
    (∀ v s, s.update = 199 → s.sequence = 6 → (tick v s).sequence = 0) := by
  refine ⟨rfl, fun n => (counters_formula rps n).2, ?_, ?_⟩
  · rw [(counters_formula rps (7 * UPDATES_PER_MOVE)).2]
    decide
  · intro v s h1 h2
    have h : (tick v s).sequence = (nextCounters s.update s.sequence).2 := rfl
    rw [h, h1, h2]
    rfl

/-- Witness for C4: the wrap hypothesis is satisfiable — from a state with
`update = 199` and `sequence = 6`, one tick brings the index back to 0. -/
theorem sequencer_seven_state_cycle_witness :
    (tick (fun _ => 0) { initState with update := 199, sequence := 6 }).sequence = 0 :=
  (sequencer_seven_state_cycle rpsZero).2.2.2 (fun _ => 0) _ rfl rfl

/-- Claim C5: entering TurnRight (sequence index 2) with magnitude 0.9 writes
setpoints FL = +0.9, FR = −0.9, RL = +0.9, RR = −0.9; entering TurnLeft
(sequence index 3, which calls `turn_right(-0.0)`) or Stop (index 6) writes
all four setpoints as zero. -/
theorem turn_right_and_stop_setpoints (p : Fin 4 → PID) :
    (dispatch 2 p FL).setpoint = 9/10 ∧
    (dispatch 2 p FR).setpoint = -(9/10) ∧
    (dispatch 2 p RL).setpoint = 9/10 ∧
    (dispatch 2 p RR).setpoint = -(9/10) ∧
    (∀ i, (dispatch 3 p i).setpoint = 0) ∧
    (∀ i, (dispatch 6 p i).setpoint = 0) := by
  have h2 := dispatch_setpoint 2 (by norm_num) p
  have h3 := dispatch_setpoint 3 (by norm_num) p
  have h6 := dispatch_setpoint 6 (by norm_num) p
  refine ⟨?_, ?_, ?_, ?_, fun i => ?_, fun i => ?_⟩ <;>
    simp [h2, h3, h6, setpointTable, FL, FR, RL, RR]

/-- Claim C6: with tick rate 100 Hz, 200-tick dwell, magnitude 0.9 and gains
Kp = 30, Ki = 0, Kd = 0.4, starting from a fresh start in Forward: on every
tick 1 ≤ n ≤ 199 the sequencer is still in Forward with all setpoints +0.9,
and exactly at the end of tick 200 it has transitioned to Reverse with all
four setpoints flipped to −0.9. -/
theorem forward_to_reverse_on_tick_200 (rps : ℕ → Fin 4 → ℚ) :
    UPDATES = 100 ∧ UPDATES_PER_MOVE = 200 ∧
    initPID.kp = 30 ∧ initPID.ki = 0 ∧ initPID.kd = 2/5 ∧
    (∀ n, 1 ≤ n → n ≤ 199 →
      (stateAfter rps n).sequence = 0 ∧
      ∀ i, ((stateAfter rps n).vel_pids i).setpoint = 9/10) ∧
    (stateAfter rps 200).sequence = 1 ∧
    ∀ i, ((stateAfter rps 200).vel_pids i).setpoint = -(9/10) := by
  refine ⟨rfl, rfl, rfl, rfl, rfl, ?_, ?_, ?_⟩
  · intro n h1 h2
    have hdiv : n / 200 = 0 := Nat.div_eq_of_lt (by omega)
    have hseq : (stateAfter rps n).sequence = 0 := by
      rw [(counters_formula rps n).2, hdiv]
    refine ⟨hseq, fun i => ?_⟩
    obtain ⟨m, rfl⟩ : ∃ m, n = m + 1 := ⟨n - 1, by omega⟩
    rw [setpoint_after rps m i, hseq]
    simp [setpointTable]
  · rw [(counters_formula rps 200).2]
  · intro i
    have hseq : (stateAfter rps 200).sequence = 1 := by
      rw [(counters_formula rps 200).2]
    have h := setpoint_after rps 199 i
    norm_num at h
    rw [h, hseq]
    simp [setpointTable]

/-- Witness for C6: the in-dwell hypothesis is satisfiable, e.g. at tick 5
the sequencer is still in Forward with setpoints +0.9. -/
theorem forward_to_reverse_on_tick_200_witness :
    (stateAfter rpsZero 5).sequence = 0 ∧
    ∀ i, ((stateAfter rpsZero 5).vel_pids i).setpoint = 9/10 :=
  (forward_to_reverse_on_tick_200 rpsZero).2.2.2.2.2.1 5 (by norm_num) (by norm_num)

/-- Claim C7: once the halt input reads true at the loop boundary of tick `t`,
the loop body is not entered again: the program state is the pre-halt state
with every motor disabled — no setpoint assignment, PID state change, motor
command change or counter change occurs after the halt is observed, for any
remaining fuel. -/
theorem halt_disables_and_stops (halt : ℕ → Bool) (rps : ℕ → Fin 4 → ℚ)
    (fuel t : ℕ) (s : RoverState) (h : halt t = true) :
    runLoop halt rps (fuel + 1) t s = disableAll s ∧
    (disableAll s).vel_pids = s.vel_pids ∧
    (∀ i, ((disableAll s).motors i).speed = (s.motors i).speed) ∧
    (∀ i, ((disableAll s).motors i).enabled = false) ∧
    (disableAll s).update = s.update ∧
    (disableAll s).sequence = s.sequence ∧
    (disableAll s).captureCount = s.captureCount := by
  refine ⟨?_, rfl, fun i => rfl, fun i => rfl, rfl, rfl, rfl⟩
  simp [runLoop, h]

/-- Witness for C7: with a halt input that reads true immediately, the loop
exits at once, merely disabling the motors of the initial state. -/
theorem halt_disables_and_stops_witness :
    runLoop (fun _ => true) rpsZero 1 0 initState = disableAll initState :=
  (halt_disables_and_stops (fun _ => true) rpsZero 0 0 initState rfl).1

/-- Claim C8: on every tick, exactly one encoder capture is taken per wheel
(each wheel's capture count rises by exactly one per tick), and each wheel's
PID calculate call consumes precisely that tick's captured
revolutions-per-second value: after the tick, the controller's stored
previous error equals `setpoint − (this tick's capture)`. -/
theorem capture_once_per_tick_before_pid (rps : ℕ → Fin 4 → ℚ) (n : ℕ) (i : Fin 4) :
    (stateAfter rps (n + 1)).captureCount i = (stateAfter rps n).captureCount i + 1 ∧
    ((stateAfter rps (n + 1)).vel_pids i).lastError
      = ((stateAfter rps n).vel_pids i).setpoint - rps n i := by
  refine ⟨rfl, ?_⟩
  have h : (stateAfter rps (n + 1)).vel_pids i
      = dispatch ((stateAfter rps (n + 1)).sequence)
          (fun j => (((stateAfter rps n).vel_pids j).calculate (rps n j)).2) i := rfl
  rw [h, dispatch_lastError]
  rfl

/-- Claim C9: at the start of every loop iteration the progress counter
satisfies `update ≤ 199` and the sequence index satisfies `sequence ≤ 6`, and
each counter is reset to 0 within the same iteration in which it would reach
its bound (`update` at 200, `sequence` at 7). -/
theorem loop_counter_invariant (rps : ℕ → Fin 4 → ℚ) (n : ℕ) :
    (stateAfter rps n).update ≤ 199 ∧ (stateAfter rps n).sequence ≤ 6 ∧
    (∀ v s, s.update = 199 → (tick v s).update = 0) ∧
    (∀ v s, s.update = 199 → s.sequence = 6 → (tick v s).sequence = 0) := by
  obtain ⟨hu, hs⟩ := counters_formula rps n
  refine ⟨by rw [hu]; omega, by rw [hs]; omega, ?_, ?_⟩
  · intro v s h1
    have h : (tick v s).update = (nextCounters s.update s.sequence).1 := rfl
    rw [h, h1]
    simp [nextCounters, UPDATES_PER_MOVE, TIME_FOR_EACH_MOVE, UPDATES]
  · intro v s h1 h2
    have h : (tick v s).sequence = (nextCounters s.update s.sequence).2 := rfl
    rw [h, h1, h2]
    rfl

/-- Witness for C9: the reset hypotheses are satisfiable — a state with
`update = 199` has its progress counter reset to 0 by the next tick. -/
theorem loop_counter_invariant_witness :
    (stateAfter rpsZero 3).update ≤ 199 ∧
    (tick (fun _ => 0) { initState with update := 199, sequence := 6 }).update = 0 :=
  ⟨(loop_counter_invariant rpsZero 3).1,
   (loop_counter_invariant rpsZero 3).2.2.1 (fun _ => 0) _ rfl⟩

/-- Claim C10: during the very first loop iteration the PID calculate calls
use the controllers' construction-time setpoint (0) rather than the Forward
pattern (+0.9): the first tick's motor command is computed from `initPID`,
and the Forward setpoint +0.9 is only in place from the start of the second
tick onward. -/
theorem first_tick_uses_construction_setpoint (rps : ℕ → Fin 4 → ℚ) (i : Fin 4) :
    ((stateAfter rps 0).vel_pids i).setpoint = 0 ∧
    ((stateAfter rps 0).vel_pids i).setpoint ≠ 9/10 ∧
    ((stateAfter rps 1).motors i).speed = (initPID.calculate (rps 0 i)).1 * UPDATE_RATE ∧
    ((stateAfter rps 1).vel_pids i).setpoint = 9/10 := by
  have hz : ((stateAfter rps 0).vel_pids i).setpoint = 0 := rfl
  refine ⟨hz, by rw [hz]; norm_num, ?_, ?_⟩
  · have h : ((stateAfter rps 1).motors i).speed
        = 0 + (initPID.calculate (rps 0 i)).1 * UPDATE_RATE := rfl
    rw [h, zero_add]
  · have hseq : (stateAfter rps 1).sequence = 0 := by
      rw [(counters_formula rps 1).2]
    have h := setpoint_after rps 0 i
    norm_num at h
    rw [h, hseq]
    simp [setpointTable]

end Rover
